import Mathlib

/-!
Shallow embedding of the SyncSafe incremental backup engine (src/main.go,
second build: the definitions starting at line 973).  Pure Lean models of
`performBackup`, `copyFile`, `gitBackup`, `initGitRepo` and the two trigger
paths, with filesystem and subprocess outcomes supplied explicitly as data,
followed by theorems settling the frozen claims.
-/

namespace SyncSafe

/-- A relative path, as the list of its segments. -/
abbrev RelPath := List String

/-- The manifest of the previous backup: association list from relative path
to (modification time, size), as built by walking the last backup directory
(`oldFiles` in `performBackup`). -/
abbrev Manifest := List (RelPath × Nat × Nat)

/-- Lookup of `oldFiles[relPath]`. -/
def lookupM : Manifest → RelPath → Option (Nat × Nat)
  | [], _ => none
  | (q, v) :: rest, p => if q = p then some v else lookupM rest p

/-- Model of `delete(oldFiles, relPath)`: removes the (first) entry with the given key. -/
def eraseM : Manifest → RelPath → Manifest
  | [], _ => []
  | (q, v) :: rest, p => if q = p then rest else (q, v) :: eraseM rest p

/-- Mutable state threaded through the `filepath.Walk` callback of
`performBackup`: the remaining previous-manifest entries, the counters, the
destination paths created so far (relative to the run's backup directory),
and the error that aborted the walk, if any. -/
structure WalkState where
  oldFiles : Manifest
  fileCount : Nat
  totalSize : Nat
  newFiles : Nat
  modifiedFiles : Nat
  written : List RelPath
  err : Option String
  deriving Repr, DecidableEq

/-- The walk callback's body for a regular file `relPath` with metadata
`(mt, sz)`: classify against `oldFiles` (deleting a matched entry), then call
`copyFile`; `ok` is whether that copy succeeds.  On copy failure the walk
aborts with the error — after the classification already happened. -/
def processFile (relPath : RelPath) (mt sz : Nat) (ok : Bool) (st : WalkState) : WalkState :=
  let st1 :=
    match lookupM st.oldFiles relPath with
    | some (mt0, sz0) =>
      let st' := { st with oldFiles := eraseM st.oldFiles relPath }
      if mt0 ≠ mt ∨ sz0 ≠ sz then { st' with modifiedFiles := st'.modifiedFiles + 1 } else st'
    | none => { st with newFiles := st.newFiles + 1 }
  if ok then
    { st1 with fileCount := st1.fileCount + 1, totalSize := st1.totalSize + sz,
               written := st1.written ++ [relPath] }
  else
    { st1 with err := some "复制文件失败" }

/-- One entry visited by the walk: a directory (with the outcome of the
`os.MkdirAll` recreating it at the destination) or a regular file (with the
outcome of its `copyFile`). -/
inductive WEntry where
  | dir (relPath : RelPath) (ok : Bool)
  | file (relPath : RelPath) (mt sz : Nat) (ok : Bool)
  deriving Repr, DecidableEq

/-- One step of the walk.  Once an error is recorded the walk has returned,
so every later entry is untouched. -/
def stepEntry (st : WalkState) (e : WEntry) : WalkState :=
  if st.err.isSome then st
  else
    match e with
    | .dir relPath ok =>
      if ok then { st with written := st.written ++ [relPath] }
      else { st with err := some "创建目录失败" }
    | .file relPath mt sz ok => processFile relPath mt sz ok st

/-- Folding the walk callback over the visited entries. -/
def walkEntries (es : List WEntry) (st : WalkState) : WalkState :=
  es.foldl stepEntry st

/-- A source tree: regular files carry (modTime, size) and the outcome of
their copy; directories carry the outcome of their destination `MkdirAll`. -/
inductive FSTree where
  | file (name : String) (mt sz : Nat) (ok : Bool)
  | dir (name : String) (ok : Bool) (children : List FSTree)
  deriving Repr

/-- The visit order of `filepath.Walk` under `performBackup`'s callback:
depth-first pre-order, with any directory named `.git` skipped together with
its whole subtree (`filepath.SkipDir`). -/
def preorder : List FSTree → RelPath → List WEntry
  | [], _ => []
  | .file n mt sz ok :: ts, pfx => .file (pfx ++ [n]) mt sz ok :: preorder ts pfx
  | .dir n ok cs :: ts, pfx =>
    if n = ".git" then preorder ts pfx
    else .dir (pfx ++ [n]) ok :: (preorder cs (pfx ++ [n]) ++ preorder ts pfx)

/-- The relative paths of a source forest, `.git` subtrees excluded — the
layout the backup directory is expected to mirror. -/
def treePaths : List FSTree → RelPath → List RelPath
  | [], _ => []
  | .file n _ _ _ :: ts, pfx => (pfx ++ [n]) :: treePaths ts pfx
  | .dir n _ cs :: ts, pfx =>
    if n = ".git" then treePaths ts pfx
    else (pfx ++ [n]) :: (treePaths cs (pfx ++ [n]) ++ treePaths ts pfx)

/-- No directory recreation or file copy fails anywhere in the forest
(`.git` subtrees exempt: they are never touched). -/
def allOk : List FSTree → Bool
  | [] => true
  | .file _ _ _ ok :: ts => ok && allOk ts
  | .dir n ok cs :: ts =>
    if n = ".git" then allOk ts else ok && allOk cs && allOk ts

/-- The relative paths of the regular files whose classification against the
previous manifest was reached before the walk terminated.  A file whose copy
fails is classified first, so it is included; a directory whose recreation
fails aborts before any further entry. -/
def classified : List WEntry → List RelPath
  | [] => []
  | .dir _ ok :: rest => if ok then classified rest else []
  | .file relPath _ _ ok :: rest => if ok then relPath :: classified rest else [relPath]

/-- Model of `strings.ReplaceAll(s, " ", "_")`. -/
def normalizeSpaces (s : String) : String :=
  String.mk (s.data.map fun c => if c = ' ' then '_' else c)

/-- The name of the run's backup directory:
`<normalized source basename>-<timestamp>`. -/
def backupFolderName (base ts : String) : String :=
  normalizeSpaces base ++ "-" ++ ts

/-- The fields of a `BackupRecord` the core computes (times omitted). -/
structure BackupRecord where
  destFolder : String
  fileCount : Nat
  totalSize : Nat
  newFiles : Nat
  modifiedFiles : Nat
  deletedFiles : Nat
  success : Bool
  errorMessage : String
  deriving Repr, DecidableEq

/-- The walk phase of `performBackup`: the root of the source tree is visited
first (relative path `.`, here `[]`; its name is the source basename, checked
against `.git` like every directory), then its children in pre-order. -/
def runWalk (base : String) (rootOk : Bool) (children : List FSTree) (prev : Manifest) :
    WalkState :=
  let st0 : WalkState :=
    { oldFiles := prev, fileCount := 0, totalSize := 0, newFiles := 0,
      modifiedFiles := 0, written := [], err := none }
  if base = ".git" then st0
  else if rootOk then
    walkEntries (preorder children []) { st0 with written := [[]] }
  else { st0 with err := some "创建目录失败" }

/-- The record `performBackup` builds after the walk: `deletedFiles` is the
number of manifest entries never matched, `success` is whether the walk
returned without error. -/
def runRecord (base ts : String) (rootOk : Bool) (children : List FSTree)
    (prev : Manifest) : BackupRecord :=
  let st := runWalk base rootOk children prev
  { destFolder := backupFolderName base ts
    fileCount := st.fileCount
    totalSize := st.totalSize
    newFiles := st.newFiles
    modifiedFiles := st.modifiedFiles
    deletedFiles := st.oldFiles.length
    success := st.err.isNone
    errorMessage := st.err.getD "" }

/-- The destination paths a run writes, relative to the destination root:
the backup directory itself plus every path the walk created inside it. -/
def runWritten (base ts : String) (rootOk : Bool) (children : List FSTree)
    (prev : Manifest) : List (List String) :=
  (runWalk base rootOk children prev).written.map
    fun p => backupFolderName base ts :: p

/-- Everything outside `performBackup`'s own control that decides how a run
unfolds: the configuration checks, the `os.Stat` of the source, the outcome
of `gitBackup` when enabled, the two `os.MkdirAll` calls creating the backup
directory, and the source tree itself. -/
structure RunEnv where
  sourceConfigured : Bool
  destConfigured : Bool
  sourceExists : Bool
  gitEnabled : Bool
  gitError : Option String
  mkParentOk : Bool
  mkBackupOk : Bool
  base : String
  ts : String
  rootOk : Bool
  children : List FSTree
  prev : Manifest

/-- The `performBackup` orchestrator: returns the emitted record (if any)
and the error dialogs shown.  Every `return` before the walk emits no
record; only a run reaching the walk calls `addBackupRecord`. -/
def performBackup (env : RunEnv) : Option BackupRecord × List String :=
  if ¬ (env.sourceConfigured ∧ env.destConfigured) then
    (none, ["请先选择源文件夹和备份文件夹"])
  else if ¬ env.sourceExists then
    (none, ["源文件夹不存在或无法访问"])
  else if env.gitEnabled ∧ env.gitError.isSome then
    (none, ["Git 备份失败: " ++ env.gitError.getD ""])
  else if ¬ env.mkParentOk then
    (none, ["创建父目录失败"])
  else if ¬ env.mkBackupOk then
    (none, ["创建备份目录失败"])
  else
    (some (runRecord env.base env.ts env.rootOk env.children env.prev), [])

/-! ### The atomic copy primitive (`copyFile`) -/

/-- The metadata-plus-content view of one file that `copyFile` manipulates. -/
structure FileData where
  content : Nat
  modTime : Nat
  mode : Nat
  deriving Repr, DecidableEq

/-- Injected outcomes for every fallible step of one `copyFile` call.  The
retried steps record how many consecutive attempts fail: the step succeeds
exactly when fewer than 3 attempts fail. -/
structure CopyFaults where
  statSrcFails : Bool
  mkdirFails : Bool
  openFails : Nat
  createFails : Nat
  copyFails : Bool
  syncFails : Bool
  closeFails : Bool
  chmodFails : Bool
  chtimesFails : Bool
  removeDstFails : Nat
  mkdir2Fails : Bool
  renameFails : Nat
  deriving Repr, DecidableEq

deriving instance DecidableEq for Except

/-- What a `copyFile` call left behind: its result, the destination path's
file, the sibling temporary file, and how many mutating writes it performed
(temporary-file creation and the content stream copy). -/
structure CopyOutcome where
  result : Except String Unit
  dst : Option FileData
  tmp : Option FileData
  writes : Nat
  deriving Repr, DecidableEq

/-- The tail of `copyFile` after the temporary file carries the full content
and the source's mode and modification time: delete an existing destination
(3 attempts), re-ensure the directory, rename.  On failure the temporary
file is removed before returning. -/
def copyFileCommit (src : FileData) (dst0 : Option FileData) (f : CopyFaults) :
    CopyOutcome :=
  let newFile : FileData := { content := src.content, modTime := src.modTime, mode := src.mode }
  let dst1 : Option FileData :=
    if dst0.isSome ∧ f.removeDstFails < 3 then none else dst0
  if dst0.isSome ∧ 3 ≤ f.removeDstFails then
    { result := .error "删除已存在的目标文件失败", dst := dst0, tmp := none, writes := 2 }
  else if f.mkdir2Fails then
    { result := .error "创建目标目录失败", dst := dst1, tmp := none, writes := 2 }
  else if 3 ≤ f.renameFails then
    { result := .error "重命名文件失败", dst := dst1, tmp := none, writes := 2 }
  else
    { result := .ok (), dst := some newFile, tmp := none, writes := 2 }

/-- Model of `copyFile(src, dst)`.  `dst0` is the file currently at the destination
path (none if absent).  Faithful to the Go control flow: stat the source;
skip when the destination's modification time equals the source's; ensure
the directory; open the source (3 attempts); create the temporary file
(3 attempts); stream-copy, sync, close; chmod and chtimes the temporary;
then commit.  Every error path removes the temporary file (the deferred
cleanup or an explicit `os.Remove`). -/
def copyFile (src : FileData) (dst0 : Option FileData) (f : CopyFaults) : CopyOutcome :=
  if f.statSrcFails then
    { result := .error "获取源文件信息失败", dst := dst0, tmp := none, writes := 0 }
  else if dst0.any fun d => d.modTime = src.modTime then
    { result := .ok (), dst := dst0, tmp := none, writes := 0 }
  else if f.mkdirFails then
    { result := .error "创建目标目录失败", dst := dst0, tmp := none, writes := 0 }
  else if 3 ≤ f.openFails then
    { result := .error "打开源文件失败", dst := dst0, tmp := none, writes := 0 }
  else if 3 ≤ f.createFails then
    { result := .error "创建临时文件失败", dst := dst0, tmp := none, writes := 0 }
  else if f.copyFails then
    { result := .error "复制文件内容失败", dst := dst0, tmp := none, writes := 1 }
  else if f.syncFails then
    { result := .error "同步文件内容失败", dst := dst0, tmp := none, writes := 2 }
  else if f.closeFails then
    { result := .error "关闭目标文件失败", dst := dst0, tmp := none, writes := 2 }
  else if f.chmodFails then
    { result := .error "设置文件权限失败", dst := dst0, tmp := none, writes := 2 }
  else if f.chtimesFails then
    { result := .error "设置文件时间失败", dst := dst0, tmp := none, writes := 2 }
  else
    copyFileCommit src dst0 f

/-! ### The remote synchronization adapter (`gitBackup`, `initGitRepo`) -/

/-- The subprocesses `gitBackup` can spawn. -/
inductive GitCmd where
  | statusQuery
  | remoteList
  | add
  | commit
  | push
  deriving Repr, DecidableEq

/-- Environment for one `gitBackup` call: whether lock artifacts exist and
whether their removal fails, and each subprocess's outcome and output. -/
structure GitEnv where
  enabled : Bool
  indexLockExists : Bool
  headLockExists : Bool
  refLockExists : Bool
  lockRemoveFails : Bool
  statusFails : Bool
  statusOutput : String
  remoteFails : Bool
  remoteOutput : String
  addFails : Bool
  commitFails : Bool
  pushFails : Bool

/-- Model of `gitBackup()`: result, the subprocesses actually run, and the status
messages posted to the UI.  Returns immediately when disabled; removes stale
lock files; queries `git status --porcelain`; returns success with a
nothing-to-commit status when the output is empty; otherwise stages,
commits, and pushes when a remote named origin is configured. -/
def gitBackup (env : GitEnv) : Except String Unit × List GitCmd × List String :=
  if ¬ env.enabled then (.ok (), [], [])
  else if (env.indexLockExists ∨ env.headLockExists ∨ env.refLockExists) ∧
      env.lockRemoveFails then
    (.error "清理 Git 锁定文件失败", [], [])
  else if env.statusFails then
    (.error "检查 Git 状态失败", [.statusQuery], [])
  else if env.statusOutput = "" then
    (.ok (), [.statusQuery], ["没有需要提交的更改"])
  else
    let withPush := ¬ env.remoteFails ∧ env.remoteOutput ≠ ""
    let baseCmds : List GitCmd := [.statusQuery, .remoteList]
    if env.addFails then
      (.error "add 失败", baseCmds ++ [.add], [])
    else if env.commitFails then
      (.error "commit 失败", baseCmds ++ [.add, .commit], ["Git add 成功"])
    else if withPush then
      if env.pushFails then
        (.error "push 失败", baseCmds ++ [.add, .commit, .push],
          ["Git add 成功", "Git commit 成功"])
      else
        (.ok (), baseCmds ++ [.add, .commit, .push],
          ["Git add 成功", "Git commit 成功", "Git push 成功"])
    else
      (.ok (), baseCmds ++ [.add, .commit], ["Git add 成功", "Git commit 成功"])

/-- The subprocesses `initGitRepo` can spawn. -/
inductive InitCmd where
  | initRepo
  | cfgUserName
  | cfgUserEmail
  | cfgDefaultBranch
  | remoteAdd
  deriving Repr, DecidableEq

/-- Environment for one `initGitRepo` call. -/
structure InitEnv where
  repoURL : String
  userName : String
  userEmail : String
  gitDirExists : Bool
  initFails : Bool
  cfgNameFails : Bool
  cfgEmailFails : Bool
  cfgBranchFails : Bool
  remoteAddFails : Bool

/-- Model of `initGitRepo()`: result and the subprocesses actually run.  The Go code
validates the repository URL first, then the committer identity, and only
then checks whether `.git` already exists; an existing repository short-
circuits before any subprocess. -/
def initGitRepo (env : InitEnv) : Except String Unit × List InitCmd :=
  if env.repoURL = "" then (.error "Git 仓库地址不能为空", [])
  else if env.userName = "" ∨ env.userEmail = "" then
    (.error "请先设置 Git 用户名和邮箱", [])
  else if env.gitDirExists then (.ok (), [])
  else if env.initFails then (.error "初始化 Git 仓库失败", [.initRepo])
  else if env.cfgNameFails then
    (.error "Git 配置失败", [.initRepo, .cfgUserName])
  else if env.cfgEmailFails then
    (.error "Git 配置失败", [.initRepo, .cfgUserName, .cfgUserEmail])
  else if env.cfgBranchFails then
    (.error "Git 配置失败", [.initRepo, .cfgUserName, .cfgUserEmail, .cfgDefaultBranch])
  else if env.remoteAddFails then
    (.error "Git 配置失败",
      [.initRepo, .cfgUserName, .cfgUserEmail, .cfgDefaultBranch, .remoteAdd])
  else
    (.ok (), [.initRepo, .cfgUserName, .cfgUserEmail, .cfgDefaultBranch, .remoteAdd])

/-! ### The trigger paths -/

/-- The observable steps of a trigger path around the run-exclusivity lock
`backupMutex`. -/
inductive TrigStep where
  | tryLockSuccess
  | tryLockFailure
  | blockingAcquire
  | runStep
  | unlock
  | statusMsg (s : String)
  | discard
  deriving Repr, DecidableEq

/-- The debounce timer's firing (the closure in `startWatching`):
discarded silently when the last completed backup is more recent than the
debounce window; otherwise `TryLock` — on contention a status message and a
discard, else the run under the lock. -/
def debounceFire (lockFree : Bool) (recentBackup : Bool) : List TrigStep :=
  if recentBackup then [.discard]
  else if lockFree then [.tryLockSuccess, .runStep, .unlock]
  else [.tryLockFailure, .statusMsg "已有备份正在进行中...", .discard]

/-- The manual 立即备份 button's callback: `go b.performBackup()` — it
starts the run unconditionally and touches no lock. -/
def manualTrigger : List TrigStep :=
  [.runStep]

/-- How many runs a trigger path starts. -/
def runsStarted (tr : List TrigStep) : Nat :=
  tr.count .runStep

/-! ### Walk lemmas -/

theorem isNone_eq_false_iff (o : Option String) : o.isNone = false ↔ o.isSome = true := by
  cases o <;> simp

theorem walkEntries_cons (e : WEntry) (rest : List WEntry) (st : WalkState) :
    walkEntries (e :: rest) st = walkEntries rest (stepEntry st e) :=
  rfl

theorem stepEntry_of_err {st : WalkState} (e : WEntry) (h : st.err.isSome) :
    stepEntry st e = st := by
  simp [stepEntry, h]

theorem walkEntries_of_err : ∀ (es : List WEntry) (st : WalkState),
    st.err.isSome → walkEntries es st = st
  | [], _, _ => rfl
  | e :: rest, st, h => by
    rw [walkEntries_cons, stepEntry_of_err e h, walkEntries_of_err rest st h]

/-- The inner-loop invariant behind the record-count bound: while no error is
recorded the classified files are exactly the copied ones, and an abort can
leave at most one file classified but not counted. -/
def invCounts (st : WalkState) : Prop :=
  (st.err = none → st.newFiles + st.modifiedFiles ≤ st.fileCount) ∧
  st.newFiles + st.modifiedFiles ≤ st.fileCount + 1

theorem stepEntry_inv {st : WalkState} (e : WEntry) (h : invCounts st) :
    invCounts (stepEntry st e) := by
  obtain ⟨h1, h2⟩ := h
  by_cases herr : st.err.isSome
  · rw [stepEntry_of_err e herr]; exact ⟨h1, h2⟩
  · have hnone : st.err = none := Option.not_isSome_iff_eq_none.mp herr
    have h0 : st.newFiles + st.modifiedFiles ≤ st.fileCount := h1 hnone
    cases e with
    | dir rel ok =>
      cases ok <;> simp [stepEntry, herr, invCounts] <;> omega
    | file rel mt sz ok =>
      simp only [stepEntry, herr, if_false, Bool.false_eq_true, processFile]
      rcases hl : lookupM st.oldFiles rel with _ | ⟨mt0, sz0⟩ <;>
        cases ok <;>
        simp [invCounts, hnone, hl] <;>
        (try split) <;> (try simp) <;> omega

theorem walkEntries_inv : ∀ (es : List WEntry) (st : WalkState),
    invCounts st → invCounts (walkEntries es st)
  | [], _, h => h
  | e :: rest, st, h => by
    rw [walkEntries_cons]
    exact walkEntries_inv rest _ (stepEntry_inv e h)

/-! ### Manifest lemmas -/

theorem lookupM_none_eraseM : ∀ (m : Manifest) (p : RelPath),
    lookupM m p = none → eraseM m p = m
  | [], _, _ => rfl
  | (q, v) :: rest, p, h => by
    by_cases hq : q = p
    · simp [lookupM, hq] at h
    · simp only [lookupM, hq, if_false] at h
      simp [eraseM, hq, lookupM_none_eraseM rest p h]

theorem eraseM_eq_filter : ∀ (m : Manifest) (p : RelPath),
    (m.map Prod.fst).Nodup →
    eraseM m p = m.filter fun e => decide (¬ e.1 = p)
  | [], _, _ => rfl
  | (q, v) :: rest, p, h => by
    simp only [List.map_cons, List.nodup_cons] at h
    by_cases hq : q = p
    · subst hq
      have hall : ∀ e ∈ rest, decide (¬ e.1 = q) = true := by
        intro e he
        simp only [decide_eq_true_eq]
        intro hcontra
        exact h.1 (hcontra ▸ List.mem_map_of_mem Prod.fst he)
      calc eraseM ((q, v) :: rest) q = rest := by simp [eraseM]
        _ = List.filter (fun e => decide (¬ e.1 = q)) rest :=
            (List.filter_eq_self.mpr hall).symm
        _ = List.filter (fun e => decide (¬ e.1 = q)) ((q, v) :: rest) := by
            rw [List.filter_cons]; simp
    · simp [eraseM, hq, List.filter_cons, eraseM_eq_filter rest p h.2]

theorem nodupKeys_eraseM (m : Manifest) (p : RelPath)
    (h : (m.map Prod.fst).Nodup) : ((eraseM m p).map Prod.fst).Nodup := by
  rw [eraseM_eq_filter m p h]
  exact h.sublist ((List.filter_sublist m).map Prod.fst)

theorem processFile_oldFiles (relPath : RelPath) (mt sz : Nat) (ok : Bool)
    (st : WalkState) :
    (processFile relPath mt sz ok st).oldFiles = eraseM st.oldFiles relPath := by
  unfold processFile
  rcases hl : lookupM st.oldFiles relPath with _ | ⟨mt0, sz0⟩
  · cases ok <;> simp [hl, lookupM_none_eraseM _ _ hl]
  · cases ok <;> (simp [hl]; try split) <;> simp

theorem processFile_err_true (relPath : RelPath) (mt sz : Nat) (st : WalkState) :
    (processFile relPath mt sz true st).err = st.err := by
  unfold processFile
  rcases lookupM st.oldFiles relPath with _ | ⟨mt0, sz0⟩
  · simp
  · by_cases hc : ¬ mt0 = mt ∨ ¬ sz0 = sz <;> simp [hc]

theorem processFile_err_false (relPath : RelPath) (mt sz : Nat) (st : WalkState) :
    (processFile relPath mt sz false st).err = some "复制文件失败" := by
  unfold processFile
  rcases lookupM st.oldFiles relPath with _ | ⟨mt0, sz0⟩
  · simp
  · by_cases hc : ¬ mt0 = mt ∨ ¬ sz0 = sz <;> simp [hc]

/-- After the walk, the surviving manifest entries are exactly those whose
path was never classified before the walk terminated. -/
theorem walkEntries_oldFiles : ∀ (es : List WEntry) (st : WalkState),
    st.err = none → (st.oldFiles.map Prod.fst).Nodup →
    (walkEntries es st).oldFiles =
      st.oldFiles.filter fun e => decide (e.1 ∉ classified es)
  | [], st, _, _ => by
    simp [walkEntries, classified]
  | .dir rel ok :: rest, st, herr, hnd => by
    rw [walkEntries_cons]
    cases ok with
    | true =>
      have hstep : stepEntry st (.dir rel true) = { st with written := st.written ++ [rel] } := by
        simp [stepEntry, herr]
      rw [hstep,
        walkEntries_oldFiles rest { st with written := st.written ++ [rel] } herr hnd]
      simp [classified]
    | false =>
      have hstep : stepEntry st (.dir rel false) = { st with err := some "创建目录失败" } := by
        simp [stepEntry, herr]
      rw [hstep, walkEntries_of_err rest { st with err := some "创建目录失败" } (by simp)]
      simp [classified]
  | .file rel mt sz ok :: rest, st, herr, hnd => by
    rw [walkEntries_cons]
    have hstep : stepEntry st (.file rel mt sz ok) = processFile rel mt sz ok st := by
      simp [stepEntry, herr]
    rw [hstep]
    cases ok with
    | true =>
      have herr' : (processFile rel mt sz true st).err = none := by
        rw [processFile_err_true]; exact herr
      have hnd' : ((processFile rel mt sz true st).oldFiles.map Prod.fst).Nodup := by
        rw [processFile_oldFiles]; exact nodupKeys_eraseM _ _ hnd
      rw [walkEntries_oldFiles rest _ herr' hnd', processFile_oldFiles,
        eraseM_eq_filter _ _ hnd, List.filter_filter]
      refine List.filter_congr fun e _ => ?_
      simp only [classified, if_true, List.mem_cons, decide_not]
      by_cases h1 : e.1 = rel <;> by_cases h2 : e.1 ∈ classified rest <;>
        simp [h1, h2]
    | false =>
      rw [walkEntries_of_err rest (processFile rel mt sz false st)
          (by rw [processFile_err_false]; simp),
        processFile_oldFiles, eraseM_eq_filter _ _ hnd]
      refine List.filter_congr fun e _ => ?_
      simp [classified]

/-! ### Written-layout lemmas -/

/-- The relative destination path an entry is written to. -/
def relOf : WEntry → RelPath
  | .dir rel _ => rel
  | .file rel _ _ _ => rel

/-- Whether the entry's directory recreation / file copy succeeds. -/
def entryOk : WEntry → Bool
  | .dir _ ok => ok
  | .file _ _ _ ok => ok

theorem preorder_map_relOf : ∀ (ts : List FSTree) (pfx : RelPath),
    (preorder ts pfx).map relOf = treePaths ts pfx := by
  intro ts pfx
  induction ts, pfx using preorder.induct with
  | case1 pfx => simp [preorder, treePaths]
  | case2 n mt sz ok ts pfx ih => simp [preorder, treePaths, relOf, ih]
  | case3 ok cs ts pfx ih => simp [preorder, treePaths, ih]
  | case4 n ok cs ts pfx hn ih1 ih2 =>
    simp [preorder, treePaths, hn, relOf, ih1, ih2]

theorem preorder_allOk : ∀ (ts : List FSTree) (pfx : RelPath),
    allOk ts = true → (preorder ts pfx).all entryOk = true := by
  intro ts pfx h
  induction ts, pfx using preorder.induct with
  | case1 pfx => simp [preorder]
  | case2 n mt sz ok ts pfx ih =>
    simp only [allOk, Bool.and_eq_true] at h
    simp [preorder, entryOk, h.1, ih h.2]
  | case3 ok cs ts pfx ih =>
    simp only [allOk, if_pos rfl] at h
    simp [preorder, ih h]
  | case4 n ok cs ts pfx hn ih1 ih2 =>
    simp only [allOk, if_neg hn, Bool.and_eq_true] at h
    simp [preorder, hn, entryOk, h.1.1, ih1 h.1.2, ih2 h.2, List.all_append]

theorem processFile_written_true (relPath : RelPath) (mt sz : Nat) (st : WalkState) :
    (processFile relPath mt sz true st).written = st.written ++ [relPath] := by
  unfold processFile
  rcases lookupM st.oldFiles relPath with _ | ⟨mt0, sz0⟩
  · simp
  · by_cases hc : ¬ mt0 = mt ∨ ¬ sz0 = sz <;> simp [hc]

theorem stepEntry_ok (st : WalkState) (e : WEntry) (herr : st.err = none)
    (hok : entryOk e = true) :
    (stepEntry st e).written = st.written ++ [relOf e] ∧ (stepEntry st e).err = none := by
  cases e with
  | dir rel ok =>
    simp only [entryOk] at hok
    subst hok
    simp [stepEntry, herr, relOf]
  | file rel mt sz ok =>
    simp only [entryOk] at hok
    subst hok
    have hs : stepEntry st (.file rel mt sz true) = processFile rel mt sz true st := by
      simp [stepEntry, herr]
    rw [hs, relOf]
    exact ⟨processFile_written_true rel mt sz st,
      (processFile_err_true rel mt sz st).trans herr⟩

/-- A walk in which every step succeeds writes each visited entry's relative
path, in visit order, and ends without error. -/
theorem walkEntries_written : ∀ (es : List WEntry) (st : WalkState),
    st.err = none → es.all entryOk = true →
    (walkEntries es st).written = st.written ++ es.map relOf ∧
      (walkEntries es st).err = none
  | [], st, herr, _ => by simp [walkEntries, herr]
  | e :: rest, st, herr, hok => by
    simp only [List.all_cons, Bool.and_eq_true] at hok
    obtain ⟨hw, he⟩ := stepEntry_ok st e herr hok.1
    rw [walkEntries_cons]
    obtain ⟨hw', he'⟩ := walkEntries_written rest (stepEntry st e) he hok.2
    refine ⟨?_, he'⟩
    rw [hw', hw, List.map_cons, List.append_assoc]
    rfl

/-! ### Copy-primitive lemmas -/

/-- Outcome characterization of `copyFile`: the temporary file is always
gone when the call returns, the destination is only ever the original file,
absent, or the complete new copy, and a successful call leaves a destination
whose modification time equals the source's. -/
theorem copyFile_spec (src : FileData) (dst0 : Option FileData) (f : CopyFaults) :
    (copyFile src dst0 f).tmp = none ∧
    ((copyFile src dst0 f).dst = dst0 ∨ (copyFile src dst0 f).dst = none ∨
      (copyFile src dst0 f).dst =
        some { content := src.content, modTime := src.modTime, mode := src.mode }) ∧
    ((copyFile src dst0 f).result = .ok () →
      (copyFile src dst0 f).dst.any (fun d => d.modTime = src.modTime) = true) := by
  simp only [copyFile, copyFileCommit]
  by_cases h1 : f.statSrcFails = true
  · simp [h1]
  · rw [if_neg h1]
    by_cases h2 : Option.any (fun d => decide (d.modTime = src.modTime)) dst0 = true
    · rw [if_pos h2]
      exact ⟨rfl, Or.inl rfl, fun _ => h2⟩
    · rw [if_neg h2]
      by_cases h3 : f.mkdirFails = true
      · simp [h3]
      · rw [if_neg h3]
        by_cases h4 : 3 ≤ f.openFails
        · simp [h4]
        · rw [if_neg h4]
          by_cases h5 : 3 ≤ f.createFails
          · simp [h5]
          · rw [if_neg h5]
            by_cases h6 : f.copyFails = true
            · simp [h6]
            · rw [if_neg h6]
              by_cases h7 : f.syncFails = true
              · simp [h7]
              · rw [if_neg h7]
                by_cases h8 : f.closeFails = true
                · simp [h8]
                · rw [if_neg h8]
                  by_cases h9 : f.chmodFails = true
                  · simp [h9]
                  · rw [if_neg h9]
                    by_cases h10 : f.chtimesFails = true
                    · simp [h10]
                    · rw [if_neg h10]
                      by_cases h11 : dst0.isSome = true ∧ 3 ≤ f.removeDstFails
                      · simp [h11]
                      · rw [if_neg h11]
                        by_cases h12 : f.mkdir2Fails = true
                        · refine ⟨by simp [h12], ?_, fun h => by simp [h12] at h⟩
                          rw [if_pos h12]
                          split
                          · exact Or.inr (Or.inl rfl)
                          · exact Or.inl rfl
                        · rw [if_neg h12]
                          by_cases h13 : 3 ≤ f.renameFails
                          · refine ⟨by simp [h13], ?_, fun h => by simp [h13] at h⟩
                            rw [if_pos h13]
                            split
                            · exact Or.inr (Or.inl rfl)
                            · exact Or.inl rfl
                          · rw [if_neg h13]
                            exact ⟨rfl, Or.inr (Or.inr rfl), fun _ => by simp⟩

/-- When the destination exists with the source's exact modification time,
`copyFile` is a successful no-op: nothing written, destination untouched. -/
theorem copyFile_skip (src d : FileData) (f : CopyFaults)
    (hstat : f.statSrcFails = false) (hmt : d.modTime = src.modTime) :
    copyFile src (some d) f =
      { result := .ok (), dst := some d, tmp := none, writes := 0 } := by
  simp only [copyFile]
  rw [if_neg (by simp [hstat]), if_pos (by simp [hmt])]

/-! ### The claims -/

/-- C1 (corrected): for successful records `newFiles + modifiedFiles ≤
fileCount` holds, but in general only `newFiles + modifiedFiles ≤ fileCount
+ 1` does: a file is classified before its copy is attempted, so a record of
a run whose walk aborted on a copy failure can exceed `fileCount` by one. -/
theorem C1_record_count_bound (base ts : String) (rootOk : Bool)
    (children : List FSTree) (prev : Manifest) :
    ((runRecord base ts rootOk children prev).success = true →
      (runRecord base ts rootOk children prev).newFiles +
        (runRecord base ts rootOk children prev).modifiedFiles ≤
        (runRecord base ts rootOk children prev).fileCount) ∧
    (runRecord base ts rootOk children prev).newFiles +
      (runRecord base ts rootOk children prev).modifiedFiles ≤
      (runRecord base ts rootOk children prev).fileCount + 1 := by
  have hinv : invCounts (runWalk base rootOk children prev) := by
    unfold runWalk
    split
    · exact ⟨fun _ => Nat.le_refl 0, Nat.le_succ 0⟩
    · split
      · exact walkEntries_inv _ _ ⟨fun _ => Nat.le_refl 0, Nat.le_succ 0⟩
      · exact ⟨fun _ => Nat.le_refl 0, Nat.le_succ 0⟩
  obtain ⟨h1, h2⟩ := hinv
  exact ⟨fun hs => h1 (Option.isNone_iff_eq_none.mp hs), h2⟩

/-- C1 counterexample: a run whose single (new) file fails to copy emits a
failed record with `newFiles = 1` but `fileCount = 0`, violating the claimed
invariant on a record of a failed run. -/
theorem C1_cex :
    (runRecord "src" "T" true [.file "a" 1 10 false] []).success = false ∧
    ¬ ((runRecord "src" "T" true [.file "a" 1 10 false] []).newFiles +
        (runRecord "src" "T" true [.file "a" 1 10 false] []).modifiedFiles ≤
        (runRecord "src" "T" true [.file "a" 1 10 false] []).fileCount) := by
  simp only [runRecord, runWalk, preorder]
  decide

/-- C1 witness: the bound applied to a concrete successful run. -/
theorem C1_witness :
    (runRecord "src" "T" true [.file "a" 1 10 true] []).newFiles +
      (runRecord "src" "T" true [.file "a" 1 10 true] []).modifiedFiles ≤
      (runRecord "src" "T" true [.file "a" 1 10 true] []).fileCount :=
  (C1_record_count_bound "src" "T" true [.file "a" 1 10 true] []).1
    (by simp only [runRecord, runWalk, preorder]; decide)

/-- C2 (corrected): once the configuration checks, the source `os.Stat`, the
remote-sync step and the two backup-directory creations succeed, the run
emits exactly one record and every walk/copy error is captured in that
record's `errorMessage` with `success = false`.  (Pre-walk failures, shown
by the counterexample, abort with a dialog and no record.) -/
theorem C2_record_emission (env : RunEnv)
    (hs : env.sourceConfigured = true) (hd : env.destConfigured = true)
    (he : env.sourceExists = true) (hg : env.gitEnabled = true → env.gitError = none)
    (hp : env.mkParentOk = true) (hbk : env.mkBackupOk = true) :
    performBackup env =
      (some (runRecord env.base env.ts env.rootOk env.children env.prev), []) ∧
    ((runRecord env.base env.ts env.rootOk env.children env.prev).success = false ↔
      (runWalk env.base env.rootOk env.children env.prev).err.isSome = true) ∧
    (runRecord env.base env.ts env.rootOk env.children env.prev).errorMessage =
      (runWalk env.base env.rootOk env.children env.prev).err.getD "" := by
  refine ⟨?_, ?_, rfl⟩
  · have hge : ¬ (env.gitEnabled = true ∧ env.gitError.isSome = true) := by
      rintro ⟨ha, hb⟩
      rw [hg ha] at hb
      simp at hb
    unfold performBackup
    simp [hs, hd, he, hp, hbk, hge]
  · show (runWalk env.base env.rootOk env.children env.prev).err.isNone = false ↔ _
    exact isNone_eq_false_iff _

/-- C2 counterexample: with remote sync enabled and failing, the run returns
after an error dialog and emits no `BackupRecord` at all — the error is not
captured in any record. -/
theorem C2_cex :
    (performBackup
        { sourceConfigured := true, destConfigured := true,
          sourceExists := true, gitEnabled := true, gitError := some "push 失败",
          mkParentOk := true, mkBackupOk := true, base := "src", ts := "T",
          rootOk := true, children := [], prev := [] }).1 = none ∧
    (performBackup
        { sourceConfigured := true, destConfigured := true,
          sourceExists := true, gitEnabled := true, gitError := some "push 失败",
          mkParentOk := true, mkBackupOk := true, base := "src", ts := "T",
          rootOk := true, children := [], prev := [] }).2 =
      ["Git 备份失败: push 失败"] := by
  constructor <;> rfl

/-- C2 witness: a concrete run through the happy pre-walk path emits its
record. -/
theorem C2_witness :
    performBackup
        { sourceConfigured := true, destConfigured := true,
          sourceExists := true, gitEnabled := false, gitError := none,
          mkParentOk := true, mkBackupOk := true, base := "src", ts := "T",
          rootOk := true, children := [FSTree.file "a" 1 10 true], prev := [] } =
      (some (runRecord "src" "T" true [FSTree.file "a" 1 10 true] []), []) :=
  (C2_record_emission _ rfl rfl rfl (fun h => Bool.noConfusion h) rfl rfl).1

/-- C3 (confirmed): when the destination exists with exactly the source's
modification time, `copyFile` succeeds without writing anything, and a
second `copyFile` right after a successful one (inputs unchanged, source
readable) performs zero writes and leaves everything as it was. -/
theorem C3_skip_and_idempotent :
    (∀ (src d : FileData) (f : CopyFaults), f.statSrcFails = false →
      d.modTime = src.modTime →
      copyFile src (some d) f =
        { result := .ok (), dst := some d, tmp := none, writes := 0 }) ∧
    (∀ (src : FileData) (dst0 : Option FileData) (f1 f2 : CopyFaults),
      f2.statSrcFails = false → (copyFile src dst0 f1).result = .ok () →
      copyFile src ((copyFile src dst0 f1).dst) f2 =
        { result := .ok (), dst := (copyFile src dst0 f1).dst, tmp := none,
          writes := 0 }) := by
  refine ⟨fun src d f h1 h2 => copyFile_skip src d f h1 h2, ?_⟩
  intro src dst0 f1 f2 hstat hok
  have hany := (copyFile_spec src dst0 f1).2.2 hok
  rcases hd : (copyFile src dst0 f1).dst with _ | d
  · rw [hd] at hany
    simp at hany
  · rw [hd] at hany
    exact copyFile_skip src d f2 hstat (by simpa using hany)

/-- C3 witness: the skip path at a concrete matching destination. -/
theorem C3_witness :
    copyFile ⟨5, 7, 6⟩ (some ⟨9, 7, 4⟩)
        ⟨false, false, 0, 0, false, false, false, false, false, 0, false, 0⟩ =
      { result := .ok (), dst := some ⟨9, 7, 4⟩, tmp := none, writes := 0 } :=
  C3_skip_and_idempotent.1 ⟨5, 7, 6⟩ ⟨9, 7, 4⟩ _ rfl rfl

/-- C4 (confirmed): each regular file is classified against the previous
manifest — new when absent, modified when present with differing modTime or
size (the entry being removed, so the leftovers form the deleted set),
unchanged otherwise (also removed) — and the spec's concrete example yields
`newFiles = 1, modifiedFiles = 0, deletedFiles = 1`. -/
theorem C4_classification :
    (∀ (st : WalkState) (relPath : RelPath) (mt sz : Nat) (ok : Bool),
      lookupM st.oldFiles relPath = none →
        (processFile relPath mt sz ok st).newFiles = st.newFiles + 1 ∧
        (processFile relPath mt sz ok st).modifiedFiles = st.modifiedFiles ∧
        (processFile relPath mt sz ok st).oldFiles = st.oldFiles) ∧
    (∀ (st : WalkState) (relPath : RelPath) (mt sz mt0 sz0 : Nat) (ok : Bool),
      lookupM st.oldFiles relPath = some (mt0, sz0) → (mt0 ≠ mt ∨ sz0 ≠ sz) →
        (processFile relPath mt sz ok st).modifiedFiles = st.modifiedFiles + 1 ∧
        (processFile relPath mt sz ok st).newFiles = st.newFiles ∧
        (processFile relPath mt sz ok st).oldFiles = eraseM st.oldFiles relPath) ∧
    (∀ (st : WalkState) (relPath : RelPath) (mt sz : Nat) (ok : Bool),
      lookupM st.oldFiles relPath = some (mt, sz) →
        (processFile relPath mt sz ok st).modifiedFiles = st.modifiedFiles ∧
        (processFile relPath mt sz ok st).newFiles = st.newFiles ∧
        (processFile relPath mt sz ok st).oldFiles = eraseM st.oldFiles relPath) ∧
    ((runRecord "src" "T" true [.file "a" 1 10 true, .file "c" 3 30 true]
        [(["a"], 1, 10), (["b"], 2, 20)]).newFiles = 1 ∧
      (runRecord "src" "T" true [.file "a" 1 10 true, .file "c" 3 30 true]
        [(["a"], 1, 10), (["b"], 2, 20)]).modifiedFiles = 0 ∧
      (runRecord "src" "T" true [.file "a" 1 10 true, .file "c" 3 30 true]
        [(["a"], 1, 10), (["b"], 2, 20)]).deletedFiles = 1) := by
  refine ⟨?_, ?_, ?_, by simp only [runRecord, runWalk, preorder]; decide⟩
  · intro st relPath mt sz ok h
    cases ok <;> simp [processFile, h]
  · intro st relPath mt sz mt0 sz0 ok h hdiff
    cases ok <;> simp [processFile, h, hdiff]
  · intro st relPath mt sz ok h
    cases ok <;> simp [processFile, h]

/-- C4 witness: the new-file classification applied at a concrete state. -/
theorem C4_witness :
    (processFile ["c"] 3 30 true
        { oldFiles := [(["b"], 2, 20)], fileCount := 1, totalSize := 10,
          newFiles := 0, modifiedFiles := 0, written := [], err := none }).newFiles = 1 :=
  (C4_classification.1
    { oldFiles := [(["b"], 2, 20)], fileCount := 1, totalSize := 10,
      newFiles := 0, modifiedFiles := 0, written := [], err := none }
    ["c"] 3 30 true (by decide)).1

/-- C5 (corrected): every `copyFile` call ends with the temporary file gone
(in particular on every error return), and the destination is never
partially written — but it can be absent: after the pre-rename deletion of
the old destination succeeds and the rename then fails, neither the old nor
the new file is present, so the claimed disjunction "old intact or new fully
present" needs the third case. -/
theorem C5_no_partial_destination (src : FileData) (dst0 : Option FileData)
    (f : CopyFaults) :
    (copyFile src dst0 f).tmp = none ∧
    ((copyFile src dst0 f).dst = dst0 ∨ (copyFile src dst0 f).dst = none ∨
      (copyFile src dst0 f).dst =
        some { content := src.content, modTime := src.modTime, mode := src.mode }) :=
  ⟨(copyFile_spec src dst0 f).1, (copyFile_spec src dst0 f).2.1⟩

/-- C5 counterexample: old destination removed, rename fails three times —
the call errors with the temporary deleted, yet the destination is neither
the old file nor the full new copy: it is gone. -/
theorem C5_cex :
    (copyFile ⟨1, 2, 3⟩ (some ⟨9, 5, 6⟩)
        ⟨false, false, 0, 0, false, false, false, false, false, 0, false, 3⟩).result =
      .error "重命名文件失败" ∧
    (copyFile ⟨1, 2, 3⟩ (some ⟨9, 5, 6⟩)
        ⟨false, false, 0, 0, false, false, false, false, false, 0, false, 3⟩).tmp = none ∧
    (copyFile ⟨1, 2, 3⟩ (some ⟨9, 5, 6⟩)
        ⟨false, false, 0, 0, false, false, false, false, false, 0, false, 3⟩).dst = none ∧
    (some ⟨9, 5, 6⟩ : Option FileData) ≠ none ∧
    (⟨1, 2, 3⟩ : FileData) ≠ ⟨9, 5, 6⟩ := by
  decide

/-- C6 (confirmed): when `gitBackup` runs (enabled), the lock cleanup goes
through, and `git status --porcelain` yields empty output, the call runs no
stage, commit or push subprocess, posts the nothing-to-commit status, and
returns success. -/
theorem C6_nothing_to_commit (env : GitEnv) (hen : env.enabled = true)
    (hlr : env.lockRemoveFails = false) (hsf : env.statusFails = false)
    (hso : env.statusOutput = "") :
    gitBackup env = (.ok (), [GitCmd.statusQuery], ["没有需要提交的更改"]) ∧
    GitCmd.add ∉ (gitBackup env).2.1 ∧
    GitCmd.commit ∉ (gitBackup env).2.1 ∧
    GitCmd.push ∉ (gitBackup env).2.1 := by
  have heq : gitBackup env = (.ok (), [GitCmd.statusQuery], ["没有需要提交的更改"]) := by
    unfold gitBackup
    simp [hen, hlr, hsf, hso]
  rw [heq]
  exact ⟨rfl, by decide, by decide, by decide⟩

/-- C6 witness: the nothing-to-commit path at a concrete environment with a
stale index lock present and a remote configured. -/
theorem C6_witness :
    gitBackup
        { enabled := true, indexLockExists := true, headLockExists := false,
          refLockExists := false, lockRemoveFails := false, statusFails := false,
          statusOutput := "", remoteFails := false, remoteOutput := "origin",
          addFails := false, commitFails := false, pushFails := false } =
      (.ok (), [GitCmd.statusQuery], ["没有需要提交的更改"]) :=
  (C6_nothing_to_commit _ rfl rfl rfl rfl).1

/-- C7 (corrected): `initGitRepo` validates the remote URL and the committer
identity before it ever checks for an existing `.git`, so with `.git`
present but any of those missing it fails fast (still before any
subprocess) instead of being a no-op success; when the three fields are
present and `.git` exists it is a no-op success with no subprocess run. -/
theorem C7_validation_order (env : InitEnv) :
    (env.repoURL = "" →
      initGitRepo env = (.error "Git 仓库地址不能为空", [])) ∧
    (env.repoURL ≠ "" → (env.userName = "" ∨ env.userEmail = "") →
      initGitRepo env = (.error "请先设置 Git 用户名和邮箱", [])) ∧
    (env.repoURL ≠ "" → env.userName ≠ "" → env.userEmail ≠ "" →
      env.gitDirExists = true → initGitRepo env = (.ok (), [])) := by
  refine ⟨fun h => ?_, fun h1 h2 => ?_, fun h1 h2 h3 h4 => ?_⟩
  · unfold initGitRepo
    rw [if_pos h]
  · unfold initGitRepo
    rw [if_neg h1, if_pos h2]
  · unfold initGitRepo
    rw [if_neg h1, if_neg (by push_neg; exact ⟨h2, h3⟩), if_pos h4]

/-- C7 counterexample: `.git` exists but the repository URL is empty —
`initGitRepo` returns an error, not the claimed no-op success. -/
theorem C7_cex :
    initGitRepo
        { repoURL := "", userName := "n", userEmail := "e",
          gitDirExists := true, initFails := false, cfgNameFails := false,
          cfgEmailFails := false, cfgBranchFails := false, remoteAddFails := false } =
      (.error "Git 仓库地址不能为空", []) ∧
    (initGitRepo
        { repoURL := "", userName := "n", userEmail := "e",
          gitDirExists := true, initFails := false, cfgNameFails := false,
          cfgEmailFails := false, cfgBranchFails := false, remoteAddFails := false }).1 ≠
      .ok () := by
  decide

/-- C7 witness: the validated no-op path at a concrete environment. -/
theorem C7_witness :
    initGitRepo
        { repoURL := "u", userName := "n", userEmail := "e",
          gitDirExists := true, initFails := false, cfgNameFails := false,
          cfgEmailFails := false, cfgBranchFails := false, remoteAddFails := false } =
      (.ok (), []) :=
  (C7_validation_order _).2.2 (by decide) (by decide) (by decide) rfl

/-- C8 (corrected): the run creates exactly one backup directory named
`<normalized source basename>-<timestamp>` under the destination root and
(absent failures) the paths written inside it mirror the source tree with
`.git` excluded — but the inner path segments are written verbatim:
whitespace is normalized only in the backup directory's own name (and in
temporary file names), not in every file and directory name. -/
theorem C8_layout (base ts : String) (children : List FSTree) (prev : Manifest)
    (hb : ¬ base = ".git") (hok : allOk children = true) :
    (runRecord base ts true children prev).destFolder =
      normalizeSpaces base ++ "-" ++ ts ∧
    runWritten base ts true children prev =
      ([] :: treePaths children []).map fun p => backupFolderName base ts :: p := by
  refine ⟨rfl, ?_⟩
  unfold runWritten runWalk
  rw [if_neg hb, if_pos rfl]
  obtain ⟨hw, _⟩ := walkEntries_written (preorder children [])
    { oldFiles := prev, fileCount := 0, totalSize := 0, newFiles := 0,
      modifiedFiles := 0, written := [[]], err := none }
    rfl (preorder_allOk children [] hok)
  rw [hw, preorder_map_relOf]
  simp

/-- C8 counterexample: a source file whose name contains a space is written
to the destination with the space intact — only the backup folder's name is
normalized. -/
theorem C8_cex :
    runWritten "my src" "T" true [.file "a b.txt" 1 10 true] [] =
      [["my_src-T"], ["my_src-T", "a b.txt"]] ∧
    ' ' ∈ "a b.txt".data := by
  constructor
  · simp only [runWritten, runWalk, preorder]
    decide
  · decide

/-- C8 witness: the layout equality at a concrete run. -/
theorem C8_witness :
    runWritten "src" "T" true
        [.dir "d" true [.file "x" 1 10 true], .dir ".git" true [], .file "y" 2 20 true] [] =
      ([] :: treePaths
          [.dir "d" true [.file "x" 1 10 true], .dir ".git" true [], .file "y" 2 20 true] []).map
        fun p => backupFolderName "src" "T" :: p :=
  (C8_layout "src" "T"
    [.dir "d" true [.file "x" 1 10 true], .dir ".git" true [], .file "y" 2 20 true]
    [] (by decide) (by simp only [allOk]; decide)).2

/-- C9 (corrected): only the debounced trigger interacts with the
run-exclusivity lock — non-blocking `TryLock`, with the work item discarded
and a contention status when the lock is held; the manual trigger starts a
run without acquiring any lock, so a manual trigger during a debounced run
yields two concurrently started runs. -/
theorem C9_trigger_paths :
    (∀ recentBackup : Bool,
      debounceFire false recentBackup = [] ∨
      runsStarted (debounceFire false recentBackup) = 0) ∧
    (debounceFire false false =
      [.tryLockFailure, .statusMsg "已有备份正在进行中...", .discard]) ∧
    (debounceFire true false = [.tryLockSuccess, .runStep, .unlock]) ∧
    (debounceFire true true = [.discard] ∧ debounceFire false true = [.discard]) ∧
    manualTrigger = [.runStep] := by
  decide

/-- C9 counterexample: the manual trigger performs no lock acquisition of
any kind yet starts a run, so while a debounced run holds the lock a
concurrent manual trigger makes two runs execute, not one. -/
theorem C9_cex :
    runsStarted manualTrigger = 1 ∧
    TrigStep.blockingAcquire ∉ manualTrigger ∧
    TrigStep.tryLockSuccess ∉ manualTrigger ∧
    TrigStep.tryLockFailure ∉ manualTrigger ∧
    runsStarted (debounceFire true false) + runsStarted manualTrigger = 2 := by
  decide

/-- C10 (confirmed): the emitted record's `deletedFiles` is the number of
previous-manifest entries whose path was not classified before the walk
terminated — on an aborted walk, every not-yet-visited previous file counts
as deleted. -/
theorem C10_deleted_unmatched (base ts : String) (children : List FSTree)
    (prev : Manifest) (hb : ¬ base = ".git")
    (hnd : (prev.map Prod.fst).Nodup) :
    (runRecord base ts true children prev).deletedFiles =
      (prev.filter fun e =>
        decide (e.1 ∉ classified (preorder children []))).length := by
  show (runWalk base true children prev).oldFiles.length = _
  unfold runWalk
  rw [if_neg hb, if_pos rfl]
  rw [walkEntries_oldFiles (preorder children [])
    { oldFiles := prev, fileCount := 0, totalSize := 0, newFiles := 0,
      modifiedFiles := 0, written := [[]], err := none }
    rfl hnd]

/-- C10 witness: a walk aborting on its second file counts both the matched
entry it never revisits and the never-visited entries as deleted. -/
theorem C10_witness :
    (runRecord "src" "T" true
        [.file "a" 1 10 true, .file "q" 5 5 false, .file "b" 2 20 true]
        [(["a"], 1, 10), (["b"], 2, 20), (["z"], 9, 9)]).deletedFiles =
      (([(["a"], 1, 10), (["b"], 2, 20), (["z"], 9, 9)] : Manifest).filter fun e =>
        decide (e.1 ∉ classified (preorder
          [.file "a" 1 10 true, .file "q" 5 5 false, .file "b" 2 20 true] []))).length :=
  C10_deleted_unmatched "src" "T"
    [.file "a" 1 10 true, .file "q" 5 5 false, .file "b" 2 20 true]
    [(["a"], 1, 10), (["b"], 2, 20), (["z"], 9, 9)] (by decide) (by decide)

end SyncSafe

